import Mathlib

/-!
Verification of the source-address pool and dialing subsystem of the
scoreproxy SOCKS5 relay (Go). The Go sources are embedded shallowly:

* `IPv4`, `ipToUint32`, `uint32ToIP` model the 4-byte `net.IP` values and the
  `encoding/binary` big-endian conversions.
* `parseIPv4` models the composition `net.ParseIP(s).To4()` restricted to
  dotted-quad IPv4 literals (Go >= 1.17 rules: four decimal fields, each
  0..255, no leading zeros).
* `genLoop` models the materialization loop of `validateIPRange` in the
  list-based variant, with explicit `uint32` wraparound on the increment and a
  fuel parameter so that a non-terminating execution of the Go loop is
  represented by the result `none` at every fuel.
* `processLines` / `loadIPsFromFile` model the file-mode loader.
* `randomIP`, `customDialer`, `dialContext` model per-connection address
  selection and the free-bind dialer; the behavior of the Go standard
  library's `net.Dialer` (abort when the `Control` callback errors, otherwise
  the outcome of the underlying connect) is passed in through a `NetEnv`
  record of the external results.
-/

/-- Width of the `uint32` type used for numeric IPv4 values. -/
def U32 : Nat := 2 ^ 32

/-- A 4-byte IPv4 address, the `To4()` form of a `net.IP`. -/
structure IPv4 where
  b0 : Nat
  b1 : Nat
  b2 : Nat
  b3 : Nat
deriving DecidableEq, Repr

/-- Every byte of the address is in range; `net.IP` bytes always are. -/
def IPv4.valid (ip : IPv4) : Prop :=
  ip.b0 < 256 ∧ ip.b1 < 256 ∧ ip.b2 < 256 ∧ ip.b3 < 256

instance (ip : IPv4) : Decidable ip.valid := by
  unfold IPv4.valid; infer_instance

/-- `net.IPv4zero`, the unspecified address 0.0.0.0. -/
def IPv4zero : IPv4 := ⟨0, 0, 0, 0⟩

/-- `ip.IsUnspecified()` for a 4-byte address: equality with 0.0.0.0. -/
def IPv4.isUnspecified (ip : IPv4) : Bool := ip = IPv4zero

/-- Go `ipToUint32`: `binary.BigEndian.Uint32(ip.To4())`. -/
def ipToUint32 (ip : IPv4) : Nat :=
  ip.b0 * 2 ^ 24 + ip.b1 * 2 ^ 16 + ip.b2 * 2 ^ 8 + ip.b3

/-- Go `uint32ToIP`: `binary.BigEndian.PutUint32(ip, n)` into a fresh 4-byte
slice. Each byte is `byte(n >> k)`, i.e. a truncating cast, hence `% 256`. -/
def uint32ToIP (n : Nat) : IPv4 :=
  ⟨n / 2 ^ 24 % 256, n / 2 ^ 16 % 256, n / 2 ^ 8 % 256, n % 256⟩

theorem ipToUint32_uint32ToIP (n : Nat) (h : n < U32) :
    ipToUint32 (uint32ToIP n) = n := by
  simp only [ipToUint32, uint32ToIP, U32] at *
  omega

theorem uint32ToIP_ipToUint32 (ip : IPv4) (h : ip.valid) :
    uint32ToIP (ipToUint32 ip) = ip := by
  obtain ⟨h0, h1, h2, h3⟩ := h
  simp only [ipToUint32, uint32ToIP]
  obtain ⟨b0, b1, b2, b3⟩ := ip
  simp only at h0 h1 h2 h3 ⊢
  congr 1 <;> omega

theorem ipToUint32_lt (ip : IPv4) (h : ip.valid) : ipToUint32 ip < U32 := by
  obtain ⟨h0, h1, h2, h3⟩ := h
  simp only [ipToUint32, U32]
  omega

theorem uint32ToIP_valid (n : Nat) : (uint32ToIP n).valid := by
  refine ⟨?_, ?_, ?_, ?_⟩ <;> simp [uint32ToIP] <;> omega

theorem uint32ToIP_injOn {m n : Nat} (hm : m < U32) (hn : n < U32)
    (h : uint32ToIP m = uint32ToIP n) : m = n := by
  have h1 := ipToUint32_uint32ToIP m hm
  have h2 := ipToUint32_uint32ToIP n hn
  rw [← h1, ← h2, h]

/-! ### Parsing dotted-quad IPv4 literals

Models `net.ParseIP(s).To4()` on the dotted-quad space: the Go parser splits
on dots, requires exactly four non-empty all-digit fields, rejects a field
with a leading zero of length > 1 (Go >= 1.17), rejects values above 255. -/

/-- Split a character list on the dot separator (model of the field
splitting done by Go's `parseIPv4`). -/
def splitDots : List Char → List (List Char)
  | [] => [[]]
  | c :: rest =>
    let r := splitDots rest
    if c = '.' then [] :: r
    else (c :: r.headD []) :: r.tail

/-- Decimal value of a digit list (most significant first). -/
def digitsVal : List Char → Nat
  | [] => 0
  | c :: rest => (c.toNat - '0'.toNat) * 10 ^ rest.length + digitsVal rest

/-- Parse one dotted-quad field per Go's rules: non-empty, all digits, no
leading zero unless the field is exactly "0", value at most 255. -/
def parseField (cs : List Char) : Option Nat :=
  if cs = [] then none
  else if ¬ cs.all (fun c => c.isDigit) then none
  else if cs.length > 1 ∧ cs.headD ' ' = '0' then none
  else if digitsVal cs ≤ 255 then some (digitsVal cs) else none

/-- Model of `net.ParseIP(cs).To4()` for dotted-quad IPv4 literals, on the
character-list form of the input. -/
def parseIPv4Chars (cs : List Char) : Option IPv4 :=
  match splitDots cs with
  | [a, b, c, d] =>
    match parseField a, parseField b, parseField c, parseField d with
    | some x, some y, some z, some w => some ⟨x, y, z, w⟩
    | _, _, _, _ => none
  | _ => none

/-- Model of `net.ParseIP(s).To4()` for dotted-quad IPv4 literals. -/
def parseIPv4 (s : String) : Option IPv4 :=
  parseIPv4Chars s.toList

theorem parseIPv4_valid {s : String} {ip : IPv4} (h : parseIPv4 s = some ip) :
    ip.valid := by
  unfold parseIPv4 parseIPv4Chars at h
  split at h
  case h_2 => exact absurd h (by simp)
  case h_1 a b c d heq =>
    have hf : ∀ cs v, parseField cs = some v → v < 256 := by
      intro cs v hv
      unfold parseField at hv
      split at hv
      · exact absurd hv (by simp)
      · split at hv
        · exact absurd hv (by simp)
        · split at hv
          · exact absurd hv (by simp)
          · split at hv
            · simp only [Option.some.injEq] at hv
              omega
            · exact absurd hv (by simp)
    revert h
    match ha : parseField a, hb : parseField b, hc : parseField c,
        hd : parseField d with
    | some x, some y, some z, some w =>
      intro h
      simp only [Option.some.injEq] at h
      subst h
      exact ⟨hf a x ha, hf b y hb, hf c z hc, hf d w hd⟩
    | none, _, _, _ => intro h; exact absurd h (by simp)
    | some _, none, _, _ => intro h; exact absurd h (by simp)
    | some _, some _, none, _ => intro h; exact absurd h (by simp)
    | some _, some _, some _, none => intro h; exact absurd h (by simp)

/-! ### Range-mode pool construction

`validateIPRange` (list-based variant) parses both bounds, rejects
`start > end`, then materializes the range with the loop

    for i := startVal; i <= endVal; i++ {
        ips = append(ips, uint32ToIP(i))
        if i == 0xffffffff && i < endVal {
            break
        }
    }

The increment wraps modulo 2^32 (`uint32` arithmetic). The loop is embedded
with a fuel parameter: `none` means the fuel was exhausted, and a loop that
returns `none` for every fuel never terminates. -/

def genLoop : Nat → Nat → Nat → List IPv4 → Option (List IPv4)
  | 0, _, _, _ => none
  | fuel + 1, i, endVal, acc =>
    if i ≤ endVal then
      if i = 4294967295 ∧ i < endVal then some (acc ++ [uint32ToIP i])
      else genLoop fuel ((i + 1) % U32) endVal (acc ++ [uint32ToIP i])
    else some acc

/-- The error outcomes of `validateIPRange`. -/
inductive RangeError
  | invalidFormat
  | rangeOrder
  | emptyPool
deriving DecidableEq, Repr

/-- `validateIPRange` of the list-based variant at a given fuel. The outer
`Option` is the termination observation: `none` means the materialization
loop did not finish within `fuel` iterations. -/
def validateIPRangeF (fuel : Nat) (startStr endStr : String) :
    Option (Except RangeError (List IPv4)) :=
  match parseIPv4 startStr, parseIPv4 endStr with
  | some sIP, some eIP =>
    if ipToUint32 sIP > ipToUint32 eIP then
      some (Except.error RangeError.rangeOrder)
    else
      match genLoop fuel (ipToUint32 sIP) (ipToUint32 eIP) [] with
      | none => none
      | some ips =>
        if ips = [] then some (Except.error RangeError.emptyPool)
        else some (Except.ok ips)
  | _, _ => some (Except.error RangeError.invalidFormat)

/-- `validateIPRange` with fuel that covers every terminating run of the Go
loop: a run from `startVal` to `endVal` makes at most `2^32 + 1` iterations
when it terminates at all. -/
def validateIPRange (startStr endStr : String) :
    Option (Except RangeError (List IPv4)) :=
  validateIPRangeF (U32 + 2) startStr endStr

theorem genLoop_terminates (fuel : Nat) :
    ∀ i acc, ∀ endVal : Nat, i ≤ endVal → endVal < U32 - 1 →
    endVal + 2 ≤ fuel + i →
    genLoop fuel i endVal acc =
      some (acc ++ (List.range' i (endVal - i + 1)).map uint32ToIP) := by
  induction fuel with
  | zero => intro i acc endVal h1 h2 h3; omega
  | succ fuel ih =>
    intro i acc endVal h1 h2 h3
    have hiU : i + 1 < U32 := by simp only [U32] at *; omega
    have hne : ¬ (i = 4294967295 ∧ i < endVal) := by
      intro ⟨ha, _⟩; simp only [U32] at *; omega
    rcases Nat.lt_or_ge i endVal with hlt | hge
    · have hrec := ih (i + 1) (acc ++ [uint32ToIP i]) endVal (by omega) h2
        (by omega)
      have hspan : endVal - i + 1 = (endVal - (i + 1) + 1) + 1 := by omega
      have hlist : List.range' i (endVal - i + 1) =
          i :: List.range' (i + 1) (endVal - (i + 1) + 1) := by
        rw [hspan]
        exact List.range'_succ i (endVal - (i + 1) + 1) 1
      rw [genLoop, if_pos h1, if_neg hne, Nat.mod_eq_of_lt hiU, hrec, hlist]
      simp
    · have hieq : i = endVal := by omega
      subst hieq
      cases fuel with
      | zero => omega
      | succ f =>
        rw [genLoop, if_pos h1, if_neg hne, Nat.mod_eq_of_lt hiU]
        rw [genLoop, if_neg (by omega)]
        simp

theorem genLoop_max_diverges (fuel : Nat) :
    ∀ i acc, i < U32 → genLoop fuel i (U32 - 1) acc = none := by
  induction fuel with
  | zero => intro i acc _; rfl
  | succ fuel ih =>
    intro i acc hi
    have h1 : i ≤ U32 - 1 := by omega
    have hne : ¬ (i = 4294967295 ∧ i < U32 - 1) := by
      intro ⟨ha, hb⟩; simp only [U32] at *; omega
    rw [genLoop, if_pos h1, if_neg hne]
    exact ih _ _ (Nat.mod_lt _ (by simp [U32]))

theorem validateIPRange_ok (startStr endStr : String) (sIP eIP : IPv4)
    (hs : parseIPv4 startStr = some sIP) (he : parseIPv4 endStr = some eIP)
    (hle : ipToUint32 sIP ≤ ipToUint32 eIP) (hmax : ipToUint32 eIP < U32 - 1) :
    validateIPRange startStr endStr =
      some (Except.ok ((List.range' (ipToUint32 sIP)
        (ipToUint32 eIP - ipToUint32 sIP + 1)).map uint32ToIP)) := by
  have hloop := genLoop_terminates (U32 + 2) (ipToUint32 sIP) []
    (ipToUint32 eIP) hle hmax (by omega)
  simp only [validateIPRange, validateIPRangeF, hs, he, hloop, gt_iff_lt,
    List.nil_append]
  rw [if_neg (by omega), if_neg (by simp)]

/-- C1 (amended): for valid IPv4 bounds with `lower <= upper` and
`upper < 255.255.255.255`, range-mode pool construction succeeds and returns
exactly `upper - lower + 1` addresses, pairwise distinct, each lying in the
inclusive span `[lower, upper]` and covering the span; with `lower > upper`
it fails with the range-order error. (The unamended claim also covers
`upper = 255.255.255.255`, where the generation loop never terminates; see
the counterexample.) -/
theorem c1_range_pool (startStr endStr : String) (sIP eIP : IPv4)
    (hs : parseIPv4 startStr = some sIP) (he : parseIPv4 endStr = some eIP) :
    (ipToUint32 sIP ≤ ipToUint32 eIP → ipToUint32 eIP < U32 - 1 →
      ∃ ips, validateIPRange startStr endStr = some (Except.ok ips) ∧
        ips.length = ipToUint32 eIP - ipToUint32 sIP + 1 ∧
        ips.Nodup ∧
        (∀ ip ∈ ips, ∃ k, ipToUint32 sIP ≤ k ∧ k ≤ ipToUint32 eIP ∧
          ip = uint32ToIP k) ∧
        (∀ k, ipToUint32 sIP ≤ k → k ≤ ipToUint32 eIP → uint32ToIP k ∈ ips)) ∧
    (ipToUint32 eIP < ipToUint32 sIP →
      validateIPRange startStr endStr =
        some (Except.error RangeError.rangeOrder)) := by
  constructor
  · intro hle hmax
    refine ⟨_, validateIPRange_ok startStr endStr sIP eIP hs he hle hmax,
      ?_, ?_, ?_, ?_⟩
    · simp
    · refine List.Nodup.map_on ?_ (List.nodup_range' _ _)
      intro x hx y hy hxy
      rw [List.mem_range'_1] at hx hy
      exact uint32ToIP_injOn (by omega) (by omega) hxy
    · intro ip hip
      rw [List.mem_map] at hip
      obtain ⟨k, hk, rfl⟩ := hip
      rw [List.mem_range'_1] at hk
      exact ⟨k, by omega, by omega, rfl⟩
    · intro k h1 h2
      rw [List.mem_map]
      exact ⟨k, by rw [List.mem_range'_1]; omega, rfl⟩
  · intro hgt
    simp only [validateIPRange, validateIPRangeF, hs, he, gt_iff_lt]
    rw [if_pos hgt]

/-- Witness for C1 at the concrete range 10.0.0.1 - 10.0.0.3. -/
theorem c1_range_pool_witness :
    ∃ ips, validateIPRange "10.0.0.1" "10.0.0.3" = some (Except.ok ips) ∧
      ips.length = 3 ∧ ips.Nodup := by
  have h := (c1_range_pool "10.0.0.1" "10.0.0.3" ⟨10, 0, 0, 1⟩ ⟨10, 0, 0, 3⟩
    (by decide) (by decide)).1 (by decide) (by decide)
  obtain ⟨ips, h1, h2, h3, _⟩ := h
  refine ⟨ips, h1, ?_, h3⟩
  rw [h2]; decide

/-- C1 counterexample: at lower = upper = 255.255.255.255 (a valid pair with
lower <= upper) construction does not succeed: the generation loop exhausts
the canonical fuel, i.e. the Go loop never terminates. -/
theorem c1_counterexample :
    validateIPRange "255.255.255.255" "255.255.255.255" = none := by
  have hp : parseIPv4 "255.255.255.255" = some ⟨255, 255, 255, 255⟩ := by
    decide
  have hv : ipToUint32 ⟨255, 255, 255, 255⟩ = U32 - 1 := by decide
  have hdiv := genLoop_max_diverges (U32 + 2) (U32 - 1) []
    (by simp only [U32]; omega)
  simp only [validateIPRange, validateIPRangeF, hp, hv, hdiv, gt_iff_lt,
    lt_self_iff_false, if_false]

/-- C2: with upper = 255.255.255.255 the materialization loop of
`validateIPRange` does not terminate at any fuel: the guard meant to stop at
the top of the address space (`i == 0xffffffff && i < endVal`) can never be
true, so `i` wraps past the maximum and the loop runs forever, contradicting
the code's own comment and the spec. -/
theorem c2_upper_max_never_terminates (fuel : Nat) :
    validateIPRangeF fuel "255.255.255.255" "255.255.255.255" = none := by
  have hp : parseIPv4 "255.255.255.255" = some ⟨255, 255, 255, 255⟩ := by
    decide
  have hv : ipToUint32 ⟨255, 255, 255, 255⟩ = U32 - 1 := by decide
  have hdiv := genLoop_max_diverges fuel (U32 - 1) []
    (by simp only [U32]; omega)
  simp only [validateIPRangeF, hp, hv, hdiv, gt_iff_lt,
    lt_self_iff_false, if_false]

/-! ### File-mode pool construction

`loadIPsFromFile` scans the file line by line: trim whitespace, skip blank
and `#`-prefixed lines, parse the rest as IPv4 (warning and continuing on
failure), then fail if a scan error occurred or if no address was
collected. The file body is embedded as the list of its lines; a scan/read
error is an external outcome passed in as `scanErr`. -/

/-- The whitespace recognized by Go's `strings.TrimSpace` (ASCII cases). -/
def isSpaceChar (c : Char) : Bool :=
  c == ' ' || c == '\t' || c == '\n' || c == '\x0b' || c == '\x0c' ||
    c == '\r'

/-- Model of `strings.TrimSpace` on the character-list form. -/
def trimSpace (cs : List Char) : List Char :=
  ((cs.dropWhile isSpaceChar).reverse.dropWhile isSpaceChar).reverse

/-- A trimmed line the loop skips: empty, or `#`-prefixed (comment). -/
def skipLine (t : List Char) : Bool := t.isEmpty || t.headD ' ' == '#'

/-- The error outcomes of `loadIPsFromFile`. -/
inductive FileError
  | sourceUnavailable
  | emptyPool
deriving DecidableEq, Repr

/-- The scanning loop of `loadIPsFromFile`: returns the collected addresses
and the numbers of the lines that drew an invalid-address warning. -/
def processLines : List String → Nat → List IPv4 × List Nat
  | [], _ => ([], [])
  | l :: rest, lineNumber =>
    let t := trimSpace l.toList
    if skipLine t then processLines rest (lineNumber + 1)
    else
      match parseIPv4Chars t with
      | some ip =>
        let r := processLines rest (lineNumber + 1)
        (ip :: r.1, r.2)
      | none =>
        let r := processLines rest (lineNumber + 1)
        (r.1, lineNumber :: r.2)

/-- `loadIPsFromFile` on the lines of the file. The second component is the
list of warned line numbers (the warnings are non-fatal). -/
def loadIPsFromFile (lines : List String) (scanErr : Option String) :
    Except FileError (List IPv4) × List Nat :=
  let r := processLines lines 1
  match scanErr with
  | some _ => (Except.error FileError.sourceUnavailable, r.2)
  | none =>
    if r.1 = [] then (Except.error FileError.emptyPool, r.2)
    else (Except.ok r.1, r.2)

/-- A line that contributes an address to the pool. -/
def lineValid (l : String) : Bool :=
  !(skipLine (trimSpace l.toList)) &&
    (parseIPv4Chars (trimSpace l.toList)).isSome

/-- A non-blank, non-comment line that fails to parse (drawing a warning). -/
def lineInvalid (l : String) : Bool :=
  !(skipLine (trimSpace l.toList)) &&
    !(parseIPv4Chars (trimSpace l.toList)).isSome

theorem processLines_counts (lines : List String) :
    ∀ lineNumber,
    (processLines lines lineNumber).1.length =
      (lines.filter lineValid).length ∧
    (processLines lines lineNumber).2.length =
      (lines.filter lineInvalid).length := by
  induction lines with
  | nil => intro n; exact ⟨rfl, rfl⟩
  | cons l rest ih =>
    intro n
    unfold processLines lineValid lineInvalid
    rcases hskip : skipLine (trimSpace l.toList) with hv | hv
    · rcases hp : parseIPv4Chars (trimSpace l.toList) with _ | ip
      · simp only [hskip, hp, Bool.false_eq_true, if_false, List.filter,
          Bool.not_false, Option.isSome_none, Bool.and_false, Bool.and_true]
        have := ih (n + 1)
        unfold lineValid lineInvalid at this
        simp only [List.length_cons]
        exact ⟨this.1, by rw [this.2]⟩
      · simp only [hskip, hp, Bool.false_eq_true, if_false, List.filter,
          Bool.not_false, Option.isSome_some, Bool.and_true, Bool.not_true,
          Bool.and_false]
        have := ih (n + 1)
        unfold lineValid lineInvalid at this
        simp only [List.length_cons]
        exact ⟨by rw [this.1], this.2⟩
    · simp only [hskip, if_true, List.filter, Bool.not_true, Bool.false_and]
      have := ih (n + 1)
      unfold lineValid lineInvalid at this
      exact ⟨this.1, this.2⟩

/-- C4: for a file with N valid IPv4 lines and M other non-blank,
non-comment lines, file-mode construction returns a pool of exactly N
addresses; each invalid line only adds a warning (M warnings in total, the
load is never aborted by one); a file with zero valid addresses fails with
the empty-pool error. -/
theorem c4_file_pool (lines : List String) :
    (loadIPsFromFile lines none).2.length =
      (lines.filter lineInvalid).length ∧
    ((lines.filter lineValid).length = 0 →
      (loadIPsFromFile lines none).1 = Except.error FileError.emptyPool) ∧
    ((lines.filter lineValid).length ≠ 0 →
      ∃ ips, (loadIPsFromFile lines none).1 = Except.ok ips ∧
        ips.length = (lines.filter lineValid).length) := by
  have hc := processLines_counts lines 1
  refine ⟨?_, ?_, ?_⟩
  · by_cases h : (processLines lines 1).1 = [] <;>
      simp [loadIPsFromFile, h, hc.2]
  · intro hz
    have : (processLines lines 1).1 = [] := by
      rw [← List.length_eq_zero, hc.1]
      exact hz
    simp [loadIPsFromFile, this]
  · intro hnz
    have : (processLines lines 1).1 ≠ [] := by
      intro h
      rw [← hc.1, h] at hnz
      exact hnz rfl
    refine ⟨(processLines lines 1).1, ?_, hc.1⟩
    simp [loadIPsFromFile, this]

/-- Witness for C4: a file with two valid lines, one comment, one blank
line and one bogus line loads a pool of exactly two addresses with one
warning. -/
theorem c4_file_pool_witness :
    ((loadIPsFromFile ["10.0.0.1", "# note", "", "bogus", "10.0.0.2"]
        none).2.length = 1 ∧
      ∃ ips,
        (loadIPsFromFile ["10.0.0.1", "# note", "", "bogus", "10.0.0.2"]
          none).1 = Except.ok ips ∧ ips.length = 2) := by
  have h := c4_file_pool ["10.0.0.1", "# note", "", "bogus", "10.0.0.2"]
  refine ⟨?_, ?_⟩
  · rw [h.1]; decide
  · obtain ⟨ips, h1, h2⟩ := h.2.2 (by decide)
    exact ⟨ips, h1, by rw [h2]; decide⟩

/-! ### Per-connection address selection

`randomIP` of the list-based variant: an empty pool logs an error and
returns `net.IPv4zero`; otherwise it indexes the pool at
`localRand.Intn(len(ipList))`. The random source is embedded as a function
`draw` from the bound given to `Intn` to the value it returns; `Intn`
guarantees the value is in `[0, n)`. -/

def randomIP (ipList : List IPv4) (draw : Nat → Nat) : IPv4 :=
  if ipList.length = 0 then IPv4zero
  else ipList.getD (draw ipList.length) IPv4zero

theorem getD_of_lt (l : List IPv4) (n : Nat) (d : IPv4)
    (h : n < l.length) : l.getD n d = l.get ⟨n, h⟩ := by
  simp [List.getD_eq_getElem?_getD, List.getElem?_eq_getElem h]

/-- C5: on a non-empty pool every selection with an in-bounds draw returns
an element of the pool, namely exactly the element at the drawn index, so
the draw is uniform over the pool whenever the source is uniform over the
indices. -/
theorem c5_select_in_pool (ipList : List IPv4) (draw : Nat → Nat)
    (hne : ipList ≠ [])
    (hdraw : draw ipList.length < ipList.length) :
    randomIP ipList draw ∈ ipList ∧
    randomIP ipList draw = ipList.get ⟨draw ipList.length, hdraw⟩ ∧
    (∀ k, ∀ hk : k < ipList.length,
      randomIP ipList (fun _ => k) = ipList.get ⟨k, hk⟩) := by
  have hlen : ipList.length ≠ 0 := by
    intro h; exact hne (List.length_eq_zero.mp h)
  refine ⟨?_, ?_, ?_⟩
  · rw [randomIP, if_neg hlen, getD_of_lt _ _ _ hdraw]
    exact List.get_mem _ _ _
  · rw [randomIP, if_neg hlen, getD_of_lt _ _ _ hdraw]
  · intro k hk
    rw [randomIP, if_neg hlen, getD_of_lt _ _ _ hk]

/-- Witness for C5 on the pool 10.0.0.1, 10.0.0.2, 10.0.0.3 with a source
that draws index 2. -/
theorem c5_select_in_pool_witness :
    randomIP [⟨10, 0, 0, 1⟩, ⟨10, 0, 0, 2⟩, ⟨10, 0, 0, 3⟩] (fun _ => 2) ∈
      [⟨10, 0, 0, 1⟩, ⟨10, 0, 0, 2⟩, ⟨10, 0, 0, 3⟩] ∧
    randomIP [⟨10, 0, 0, 1⟩, ⟨10, 0, 0, 2⟩, ⟨10, 0, 0, 3⟩] (fun _ => 2) =
      List.get [⟨10, 0, 0, 1⟩, ⟨10, 0, 0, 2⟩, ⟨10, 0, 0, 3⟩]
        ⟨2, by decide⟩ := by
  have h := c5_select_in_pool
    [⟨10, 0, 0, 1⟩, ⟨10, 0, 0, 2⟩, ⟨10, 0, 0, 3⟩] (fun _ => 2)
    (by decide) (by decide)
  exact ⟨h.1, h.2.1⟩

/-! ### The custom outbound dialer

`customDialer` selects a source address, refuses a nil/unspecified one,
builds a `net.Dialer` with that address as `LocalAddr`, a 10-second
`Timeout`, and a `Control` callback that sets `IP_FREEBIND`, then calls
`DialContext`. The outcomes of the external operations (the raw-connection
control call, the `setsockopt` syscall, the underlying connect) are
supplied through `NetEnv`. Per the Go standard library contract of
`net.Dialer`, an error returned by `Control` aborts the dial before the
connect is attempted; that external contract is embedded in
`dialContext`. -/

/-- `&net.TCPAddr{IP: localIP}` (the port is left zero). -/
structure TCPAddr where
  ip : IPv4
deriving DecidableEq, Repr

/-- The fields of the `net.Dialer` literal built by `customDialer`. -/
structure GoDialer where
  localAddr : TCPAddr
  timeoutSeconds : Nat
deriving DecidableEq, Repr

/-- The error outcomes of a `customDialer` call. `wrapped` is the
`fmt.Errorf("custom dialer: %w", err)` wrapping applied to a failed
`DialContext`. -/
inductive DialError
  | noValidLocalIP
  | rawconnControl (msg : String)
  | sockoptFreebind (msg : String)
  | dialFailed (msg : String)
  | wrapped (e : DialError)
deriving DecidableEq, Repr

/-- A connected stream: its local endpoint and the dialed target. -/
structure Conn where
  localIP : IPv4
  network : String
  remoteAddr : String
deriving DecidableEq, Repr

/-- Outcomes of the external operations a dial performs: the
raw-connection `Control` call itself, the `SetsockoptInt(IP_FREEBIND)`
syscall inside it, and the underlying connect. -/
structure NetEnv where
  controlErr : Option String
  sockoptErr : Option String
  connectErr : Option String

/-- The `Control` callback of the dialer: runs the raw-connection control,
then reports a `setsockopt` failure; returns the error it would hand to
`net.Dialer` (`none` means the free-bind option was set). -/
def controlFn (env : NetEnv) : Option DialError :=
  match env.controlErr with
  | some e => some (DialError.rawconnControl e)
  | none =>
    match env.sockoptErr with
    | some e => some (DialError.sockoptFreebind e)
    | none => none

/-- Modelled from the Go standard library contract of
`net.Dialer.DialContext`: a `Control` error aborts the dial with that error
and no connect is attempted; otherwise the dial reflects the underlying
connect, and a successful connection is bound to the dialer's `LocalAddr`.
The second component records whether the connect was attempted. -/
def dialContext (d : GoDialer) (env : NetEnv) (network addr : String) :
    Except DialError Conn × Bool :=
  match controlFn env with
  | some e => (Except.error e, false)
  | none =>
    match env.connectErr with
    | some e => (Except.error (DialError.dialFailed e), true)
    | none => (Except.ok ⟨d.localAddr.ip, network, addr⟩, true)

/-- The observable outcome of one `customDialer` call: the returned
connection or error, whether an outbound connect was attempted, and the
dialer configuration that was built (`none` when the call refused to dial). -/
structure DialOutcome where
  result : Except DialError Conn
  connectAttempted : Bool
  dialerUsed : Option GoDialer
deriving Repr

/-- `customDialer` of the list-based variant. -/
def customDialer (ipList : List IPv4) (draw : Nat → Nat) (env : NetEnv)
    (network addr : String) : DialOutcome :=
  let localIP := randomIP ipList draw
  if localIP.isUnspecified then
    ⟨Except.error DialError.noValidLocalIP, false, none⟩
  else
    let d : GoDialer := ⟨⟨localIP⟩, 10⟩
    let r := dialContext d env network addr
    match r.1 with
    | Except.error e => ⟨Except.error (DialError.wrapped e), r.2, some d⟩
    | Except.ok conn => ⟨Except.ok conn, r.2, some d⟩

theorem dialContext_ok_localIP (d : GoDialer) (env : NetEnv)
    (network addr : String) (conn : Conn)
    (h : (dialContext d env network addr).1 = Except.ok conn) :
    conn.localIP = d.localAddr.ip := by
  unfold dialContext at h
  rcases hcf : controlFn env with _ | e <;> rw [hcf] at h
  · rcases hce : env.connectErr with _ | e2 <;> rw [hce] at h
    · simp only [Except.ok.injEq] at h
      rw [← h]
    · exact absurd h (by simp)
  · exact absurd h (by simp)

/-- C3: when setting `IP_FREEBIND` fails, the dial fails with the
socket-option error (wrapped by the dialer), returns no connection, and
never attempts the underlying connect — there is no silent fallback to a
default, locally-assigned source address. -/
theorem c3_sockopt_failure_fails_dial (ipList : List IPv4)
    (draw : Nat → Nat) (env : NetEnv) (network addr msg : String)
    (hctrl : env.controlErr = none) (hsock : env.sockoptErr = some msg) :
    (∀ conn, (customDialer ipList draw env network addr).result ≠
      Except.ok conn) ∧
    (customDialer ipList draw env network addr).connectAttempted = false ∧
    ((randomIP ipList draw).isUnspecified = false →
      (customDialer ipList draw env network addr).result =
        Except.error (DialError.wrapped (DialError.sockoptFreebind msg))) := by
  have hcf : controlFn env = some (DialError.sockoptFreebind msg) := by
    simp [controlFn, hctrl, hsock]
  by_cases hz : (randomIP ipList draw).isUnspecified
  · simp [customDialer, hz]
  · simp only [Bool.not_eq_true] at hz
    simp [customDialer, hz, dialContext, hcf]

/-- Witness for C3: one-address pool, `setsockopt` fails with EPERM. -/
theorem c3_sockopt_failure_fails_dial_witness :
    (∀ conn, (customDialer [⟨10, 0, 0, 7⟩] (fun _ => 0) ⟨none, some "EPERM",
        none⟩ "tcp" "192.0.2.1:80").result ≠ Except.ok conn) ∧
    (customDialer [⟨10, 0, 0, 7⟩] (fun _ => 0) ⟨none, some "EPERM", none⟩
      "tcp" "192.0.2.1:80").connectAttempted = false ∧
    ((randomIP [⟨10, 0, 0, 7⟩] (fun _ => 0)).isUnspecified = false →
      (customDialer [⟨10, 0, 0, 7⟩] (fun _ => 0) ⟨none, some "EPERM", none⟩
        "tcp" "192.0.2.1:80").result =
        Except.error (DialError.wrapped (DialError.sockoptFreebind
          "EPERM"))) :=
  c3_sockopt_failure_fails_dial [⟨10, 0, 0, 7⟩] (fun _ => 0)
    ⟨none, some "EPERM", none⟩ "tcp" "192.0.2.1:80" "EPERM" rfl rfl

/-- C6: whenever the selected source address is usable, the dialer built
for the call has exactly that address as its required local endpoint and a
10-second connection timeout, and a successful dial returns a connection
whose local endpoint is that chosen address. -/
theorem c6_dial_config (ipList : List IPv4) (draw : Nat → Nat)
    (env : NetEnv) (network addr : String)
    (hip : (randomIP ipList draw).isUnspecified = false) :
    (customDialer ipList draw env network addr).dialerUsed =
      some ⟨⟨randomIP ipList draw⟩, 10⟩ ∧
    (∀ conn, (customDialer ipList draw env network addr).result =
      Except.ok conn → conn.localIP = randomIP ipList draw) := by
  have hd := dialContext_ok_localIP ⟨⟨randomIP ipList draw⟩, 10⟩ env network
    addr
  unfold customDialer
  simp only [hip, Bool.false_eq_true, if_false]
  refine ⟨?_, ?_⟩
  · split <;> rfl
  · intro conn
    split
    · simp
    · rename_i c heq
      intro hok
      simp only [Except.ok.injEq] at hok
      subst hok
      exact hd c heq

/-- Witness for C6: a successful dial from the pool 10.0.0.7 reports
10.0.0.7 as the connection's local endpoint and a 10-second timeout. -/
theorem c6_dial_config_witness :
    (customDialer [⟨10, 0, 0, 7⟩] (fun _ => 0) ⟨none, none, none⟩ "tcp"
      "192.0.2.1:80").dialerUsed =
      some ⟨⟨randomIP [⟨10, 0, 0, 7⟩] (fun _ => 0)⟩, 10⟩ ∧
    (∀ conn, (customDialer [⟨10, 0, 0, 7⟩] (fun _ => 0) ⟨none, none, none⟩
      "tcp" "192.0.2.1:80").result = Except.ok conn →
      conn.localIP = randomIP [⟨10, 0, 0, 7⟩] (fun _ => 0)) :=
  c6_dial_config [⟨10, 0, 0, 7⟩] (fun _ => 0) ⟨none, none, none⟩ "tcp"
    "192.0.2.1:80" (by decide)

/-- C9: with an empty pool the selection returns 0.0.0.0, and the dial
returns an error and no connection without attempting any outbound
connect. -/
theorem c9_empty_pool (draw : Nat → Nat) (env : NetEnv)
    (network addr : String) :
    randomIP [] draw = IPv4zero ∧
    (customDialer [] draw env network addr).result =
      Except.error DialError.noValidLocalIP ∧
    (customDialer [] draw env network addr).connectAttempted = false := by
  refine ⟨rfl, ?_, ?_⟩ <;> rfl

/-! ### The two selection policies across variants -/

/-- `randomIP` of the range-based variant (main.go): a random offset over
the numeric span held in the globals `ipRangeStart`/`ipRangeEnd`. `total`
and the final sum are `uint32` arithmetic; the random source is embedded as
a function from the bound handed to `Intn` to the value it returns. -/
def randomIPOffset (ipRangeStart ipRangeEnd : Nat) (draw : Nat → Nat) :
    IPv4 :=
  let total := (ipRangeEnd - ipRangeStart + 1) % U32
  let offset := draw total
  uint32ToIP ((ipRangeStart + offset) % U32)

/-- C7 (amended): on every range whose pool actually materializes
(upper < 255.255.255.255), the two selection policies agree: the
materialized list has one entry per offset of the numeric span, and for any
draw the offset policy returns exactly the list entry at that index, so
both select every address of the span with probability 1/(upper-lower+1)
under a uniform source. (For upper = 255.255.255.255 the policies are not
equivalent; see the counterexample.) -/
theorem c7_policy_refinement (startStr endStr : String) (sIP eIP : IPv4)
    (hs : parseIPv4 startStr = some sIP) (he : parseIPv4 endStr = some eIP)
    (hle : ipToUint32 sIP ≤ ipToUint32 eIP)
    (hmax : ipToUint32 eIP < U32 - 1) :
    ∃ ips, validateIPRange startStr endStr = some (Except.ok ips) ∧
      ips.length = ipToUint32 eIP - ipToUint32 sIP + 1 ∧
      ∀ draw : Nat → Nat,
        ∀ hk : draw (ips.length % U32) < ips.length,
        randomIPOffset (ipToUint32 sIP) (ipToUint32 eIP) draw =
          ips.get ⟨draw (ips.length % U32), hk⟩ := by
  have hok := validateIPRange_ok startStr endStr sIP eIP hs he hle hmax
  refine ⟨_, hok, by simp, ?_⟩
  intro draw hk
  simp only [List.length_map, List.length_range'] at hk ⊢
  unfold randomIPOffset
  have hmod : (ipToUint32 sIP + draw ((ipToUint32 eIP - ipToUint32 sIP + 1)
      % U32)) % U32 =
      ipToUint32 sIP + draw ((ipToUint32 eIP - ipToUint32 sIP + 1) % U32) :=
    Nat.mod_eq_of_lt (by simp only [U32] at *; omega)
  rw [List.get_eq_getElem]
  simp only [List.getElem_map, List.getElem_range', one_mul, hmod]

/-- Witness for C7 on the concrete range 10.0.0.1 - 10.0.0.3 with a source
drawing index 1: both policies yield the middle address. -/
theorem c7_policy_refinement_witness :
    ∃ ips, validateIPRange "10.0.0.1" "10.0.0.3" = some (Except.ok ips) ∧
      ips.length = 3 ∧
      ∃ hk : 1 < ips.length,
        randomIPOffset (ipToUint32 ⟨10, 0, 0, 1⟩) (ipToUint32 ⟨10, 0, 0, 3⟩)
          (fun _ => 1) = ips.get ⟨1, hk⟩ := by
  obtain ⟨ips, h1, h2, h3⟩ := c7_policy_refinement "10.0.0.1" "10.0.0.3"
    ⟨10, 0, 0, 1⟩ ⟨10, 0, 0, 3⟩ (by decide) (by decide) (by decide)
    (by decide)
  have hk1 : 1 < ips.length := by rw [h2]; decide
  have hk : (fun _ : Nat => 1) (ips.length % U32) < ips.length := hk1
  refine ⟨ips, h1, by rw [h2]; decide, hk1, ?_⟩
  exact h3 (fun _ => 1) hk

/-- C7 counterexample: on the range 255.255.255.254 - 255.255.255.255 the
offset policy selects each of the two addresses of the span, while the
materialized-list policy has nothing to select from: the list never comes
into existence because the generation loop diverges. The two policies do
not have identical external behavior on every range. -/
theorem c7_counterexample :
    validateIPRange "255.255.255.254" "255.255.255.255" = none ∧
    randomIPOffset 4294967294 4294967295 (fun _ => 0) =
      ⟨255, 255, 255, 254⟩ ∧
    randomIPOffset 4294967294 4294967295 (fun _ => 1) =
      ⟨255, 255, 255, 255⟩ := by
  refine ⟨?_, by decide, by decide⟩
  have hp1 : parseIPv4 "255.255.255.254" = some ⟨255, 255, 255, 254⟩ := by
    decide
  have hp2 : parseIPv4 "255.255.255.255" = some ⟨255, 255, 255, 255⟩ := by
    decide
  have hv1 : ipToUint32 ⟨255, 255, 255, 254⟩ = U32 - 2 := by decide
  have hv2 : ipToUint32 ⟨255, 255, 255, 255⟩ = U32 - 1 := by decide
  have hdiv := genLoop_max_diverges (U32 + 2) (U32 - 2) []
    (by simp only [U32]; omega)
  simp only [validateIPRange, validateIPRangeF, hp1, hp2, hv1, hv2,
    gt_iff_lt]
  rw [if_neg (by simp only [U32]; omega), hdiv]

/-! ### Startup source selection -/

/-- The outcome of the startup source switch in `main`. -/
inductive StartupMode
  | fileMode
  | rangeMode
  | usageError
deriving DecidableEq, Repr

/-- The startup switch of `main`: the first matching case wins — a
non-empty `-file` flag selects file mode, otherwise non-empty `-start` and
`-end` flags select range mode, otherwise the process logs a fatal usage
error and exits before the relay listens. -/
def chooseSource (fileFlag startFlag endFlag : String) : StartupMode :=
  if fileFlag ≠ "" then StartupMode.fileMode
  else if startFlag ≠ "" ∧ endFlag ≠ "" then StartupMode.rangeMode
  else StartupMode.usageError

/-- C8 counterexample: supplying BOTH a file and a complete range does not
exit with a usage error — file mode silently takes precedence. -/
theorem c8_counterexample :
    chooseSource "ips.txt" "10.0.0.1" "10.0.0.10" = StartupMode.fileMode ∧
    chooseSource "ips.txt" "10.0.0.1" "10.0.0.10" ≠
      StartupMode.usageError := by
  decide

/-- C8 (amended): providing neither source (no file flag and an incomplete
range) exits with a usage error before the relay starts listening; a file
flag selects file mode; a complete range alone selects range mode; but the
two sources are not mutually exclusive: when both are supplied, the file
flag takes precedence and no usage error is raised. -/
theorem c8_source_selection (fileFlag startFlag endFlag : String) :
    (chooseSource fileFlag startFlag endFlag = StartupMode.usageError ↔
      fileFlag = "" ∧ (startFlag = "" ∨ endFlag = "")) ∧
    (fileFlag ≠ "" →
      chooseSource fileFlag startFlag endFlag = StartupMode.fileMode) ∧
    (fileFlag = "" → startFlag ≠ "" → endFlag ≠ "" →
      chooseSource fileFlag startFlag endFlag = StartupMode.rangeMode) := by
  unfold chooseSource
  by_cases h1 : fileFlag = "" <;> by_cases h2 : startFlag = "" <;>
    by_cases h3 : endFlag = "" <;> simp [h1, h2, h3]

/-- Witness for C8: no source gives the usage error, a file alone gives
file mode, a range alone gives range mode. -/
theorem c8_source_selection_witness :
    chooseSource "" "" "" = StartupMode.usageError ∧
    chooseSource "ips.txt" "" "" = StartupMode.fileMode ∧
    chooseSource "" "10.0.0.1" "10.0.0.10" = StartupMode.rangeMode :=
  ⟨(c8_source_selection "" "" "").1.mpr ⟨rfl, Or.inl rfl⟩,
    (c8_source_selection "ips.txt" "" "").2.1 (by decide),
    (c8_source_selection "" "10.0.0.1" "10.0.0.10").2.2 rfl (by decide)
      (by decide)⟩

/-! ### The conversion helpers are mutually inverse -/

/-- C10: for every unsigned 32-bit integer n, converting to an IP and back
is the identity, and for every 4-byte IPv4 address, converting to a uint32
and back restores the address. -/
theorem c10_conversion_inverse (n : Nat) (ip : IPv4) (hn : n < U32)
    (hip : ip.valid) :
    ipToUint32 (uint32ToIP n) = n ∧ uint32ToIP (ipToUint32 ip) = ip :=
  ⟨ipToUint32_uint32ToIP n hn, uint32ToIP_ipToUint32 ip hip⟩

/-- Witness for C10 at n = 167772161 and ip = 10.0.0.1. -/
theorem c10_conversion_inverse_witness :
    ipToUint32 (uint32ToIP 167772161) = 167772161 ∧
    uint32ToIP (ipToUint32 ⟨10, 0, 0, 1⟩) = ⟨10, 0, 0, 1⟩ :=
  c10_conversion_inverse 167772161 ⟨10, 0, 0, 1⟩ (by decide) (by decide)
